import Mathlib

/-!
Verification of the birthday-message scheduling and delivery engine
(Erin-Living-Test repository) against its natural-language specification.

The TypeScript sources are shallowly embedded: pure logic becomes Lean
functions, DynamoDB state becomes an explicit association-list store that
is passed and returned, and the external collaborators (the `date-fns-tz`
timezone database, the system clock, the SQS transport and the DynamoDB
network layer) are passed in as function-valued parameters ("oracles"),
so every theorem quantifies over their behaviour.

Machine integers: all JS numbers involved are exact integers (epoch
milliseconds, seconds, counts, calendar years), modelled as `Int`/`Nat`.
-/

namespace ErinLiving

/-! ## DynamoDB items and the user-table store -/

/-- A stored DynamoDB item, reduced to its string attributes (the only
attributes the delivery ledger reads or writes), as an association list
from attribute name to value. -/
structure Item where
  attrs : List (String × String)
deriving Repr, DecidableEq

/-- Attribute lookup on an item: `none` models `attribute_not_exists`. -/
def Item.getAttr (it : Item) (k : String) : Option String :=
  (it.attrs.find? (fun p => p.1 == k)).map (fun p => p.2)

/-- `SET k = v` on a single item: replaces any previous binding of `k`. -/
def Item.setAttr (it : Item) (k v : String) : Item :=
  ⟨(k, v) :: it.attrs.filter (fun p => !(p.1 == k))⟩

/-- The user table, keyed by `userId`. -/
abbrev Store := List (String × Item)

def storeGet (s : Store) (k : String) : Option Item :=
  (s.find? (fun p => p.1 == k)).map (fun p => p.2)

def storeSet (s : Store) (k : String) (it : Item) : Store :=
  if (s.find? (fun p => p.1 == k)).isSome then
    s.map (fun p => if p.1 == k then (k, it) else p)
  else
    s ++ [(k, it)]

/-! ## `src/utils/message-status.ts` -/

/-- Field names for message status tracking in DynamoDB
(`MessageStatusFieldNames` in `utils/message-status.ts`). -/
structure MessageStatusFieldNames where
  dateField : String
  sentField : String
deriving Repr, DecidableEq

/-- `EVENT_TYPE_FIELD_MAPPING` from `utils/message-status.ts`: a record
with the single key `birthday`; lookup of any other key yields
`undefined`, modelled as `none`. -/
def EVENT_TYPE_FIELD_MAPPING (eventType : String) : Option MessageStatusFieldNames :=
  if eventType = "birthday" then
    some ⟨"lastBirthdayMessageDate", "lastBirthdayMessageSent"⟩
  else
    none

/-- `getMessageStatusFields` from `utils/message-status.ts`: looks up the
mapping and, when the event type is not configured, falls back to the
`birthday` entry (the documented throw does not exist in the code). -/
def getMessageStatusFields (eventType : String) : MessageStatusFieldNames :=
  match EVENT_TYPE_FIELD_MAPPING eventType with
  | some fields => fields
  | none => ⟨"lastBirthdayMessageDate", "lastBirthdayMessageSent"⟩

/-- `wasMessageSent` from `utils/message-status.ts`.  `readResult` is the
outcome of the DynamoDB `GetCommand` (`.error` = any thrown error,
`.ok none` = no item, `.ok (some item)` = the projected item).  `yearOf`
models `new Date(s).getFullYear()` and `currentYear` models
`new Date().getFullYear()`.  The JS truthiness test `item[sentField]`
holds exactly for a present, non-empty string. -/
def wasMessageSent (yearOf : String → Int) (currentYear : Int)
    (eventType eventDate : String) (readResult : Except Unit (Option Item)) : Bool :=
  match readResult with
  | .error _ => false
  | .ok none => false
  | .ok (some item) =>
    let fields := getMessageStatusFields eventType
    match item.getAttr fields.dateField, item.getAttr fields.sentField with
    | some d, some s =>
      if d == eventDate && s != "" then yearOf s == currentYear else false
    | _, _ => false

/-! ## `src/handlers/sqs-consumer.ts` -/

/-- The `ConditionExpression` of the `UpdateCommand` in `markMessageAsSent`:
`attribute_not_exists(dateField) OR dateField <> :eventDate OR
(dateField = :eventDate AND (attribute_not_exists(sentField) OR sentField = :empty))`,
evaluated against the current item (a missing item satisfies
`attribute_not_exists`). -/
def markCondition (item? : Option Item) (dateField sentField eventDate : String) : Bool :=
  match item? with
  | none => true
  | some item =>
    match item.getAttr dateField with
    | none => true
    | some d =>
      if d != eventDate then true
      else
        match item.getAttr sentField with
        | none => true
        | some s => s == ""

/-- `markMessageAsSent` from `handlers/sqs-consumer.ts`: conditional
`UpdateCommand` setting `sentField := now` and `dateField := eventDate`;
a `ConditionalCheckFailedException` is caught and yields `false` with the
store unchanged. -/
def markMessageAsSent (now eventType userId eventDate : String) (store : Store) :
    Bool × Store :=
  let fields := getMessageStatusFields eventType
  let item? := storeGet store userId
  if markCondition item? fields.dateField fields.sentField eventDate then
    let item := item?.getD ⟨[]⟩
    (true, storeSet store userId
      ((item.setAttr fields.sentField now).setAttr fields.dateField eventDate))
  else
    (false, store)

/-- Modelled from the spec: the write condition "no marker exists for this
date yet, OR an existing marker's timestamp is not from the current year".
A marker for `eventDate` exists when the date field equals `eventDate` and
the sent field is a present non-empty timestamp. -/
def specMarkCondition (yearOf : String → Int) (currentYear : Int)
    (item? : Option Item) (dateField sentField eventDate : String) : Bool :=
  match item? with
  | none => true
  | some item =>
    match item.getAttr dateField, item.getAttr sentField with
    | some d, some s =>
      if d == eventDate && s != "" then yearOf s != currentYear else true
    | _, _ => true

/-- The fields of `EventMessage` in `handlers/sqs-consumer.ts` (also the
message body built by the scheduler and the recovery handler). -/
structure EventMessage where
  userId : String
  firstName : String
  lastName : String
  eventType : String
  eventDate : String
  timezone : String
  targetUTC : String
deriving Repr, DecidableEq

/-- `Location` from `schemas/user.ts` (`lat`/`lng` are optional numbers;
they never influence the scheduling logic). -/
structure Location where
  city : String
  province : String
  lat : Option ℚ
  lng : Option ℚ
deriving Repr, DecidableEq

/-- `User` from `schemas/user.ts`. -/
structure User where
  userId : String
  firstName : String
  lastName : String
  birthday : String
  timezone : String
  location : Location
  createdAt : String
  updatedAt : String
  birthdayMonthDay : Option String
  anniversaryDate : Option String
deriving Repr, DecidableEq

/-- Result of one `processEventMessage` call: the propagated outcome, the
final store state, and whether the outbound send was performed. -/
structure ConsumerOutcome where
  result : Except String Unit
  store : Store
  sendAttempted : Bool

/-- `processEventMessage` from `handlers/sqs-consumer.ts`.  `user?` is the
outcome of `getUserById`, `ledgerRead` the outcome of the `GetCommand`
inside `wasMessageSent`, and `sendResult` the outcome of
`messageService.sendMessage` (`.error` = the send threw).  The ledger
write `markMessageAsSent` runs only in the send-success branch. -/
def processEventMessage (user? : Option User) (ledgerRead : Except Unit (Option Item))
    (sendResult : Except String Unit) (yearOf : String → Int) (currentYear : Int)
    (now : String) (msg : EventMessage) (store : Store) : ConsumerOutcome :=
  match user? with
  | none => ⟨.ok (), store, false⟩
  | some user =>
    if wasMessageSent yearOf currentYear msg.eventType msg.eventDate ledgerRead then
      ⟨.ok (), store, false⟩
    else
      match sendResult with
      | .error e => ⟨.error e, store, true⟩
      | .ok _ =>
        ⟨.ok (), (markMessageAsSent now msg.eventType user.userId msg.eventDate store).2, true⟩

/-! ## Date-string helpers (components of `parseISO` / `format` on
well-formed `YYYY-MM-DD` strings) -/

/-- `String(n).padStart(2, '0')`. -/
def pad2 (n : Nat) : String :=
  if n < 10 then "0" ++ toString n else toString n

/-- Split a character list at every `-` (the kernel-computable core of
splitting an ISO date string on dashes). -/
def splitOnDash : List Char → List (List Char)
  | [] => [[]]
  | c :: rest =>
    let r := splitOnDash rest
    if c = '-' then [] :: r
    else
      match r with
      | [] => [[c]]
      | g :: gs => (c :: g) :: gs

/-- Decimal value of a non-empty all-digit character list, else `none`. -/
def charsToNat? (cs : List Char) : Option Nat :=
  if cs.isEmpty then none
  else
    cs.foldl (fun acc c =>
      match acc with
      | none => none
      | some n => if c.isDigit then some (n * 10 + (c.toNat - 48)) else none)
      (some 0)

/-- Components of a `YYYY-MM-DD` string as produced by `parseISO` followed
by `getFullYear` / `getMonth() + 1` / `getDate`. -/
def parseYMD (dateString : String) : Nat × Nat × Nat :=
  match (splitOnDash dateString.toList).map charsToNat? with
  | some y :: some m :: some d :: _ => (y, m, d)
  | _ => (0, 0, 0)

/-- Calendar year of an ISO date or timestamp string, as
`new Date(s).getFullYear()` computes it on well-formed input. -/
def isoYear (s : String) : Int :=
  match (splitOnDash s.toList).map charsToNat? with
  | some y :: _ => (y : Int)
  | _ => 0

/-! ## `src/services/timezone-service.ts` -/

/-- The local wall-clock string `YYYY-MM-DDTHH:00:00` that
`getTargetHourInUTC` hands to `zonedTimeToUtc`. -/
def localDateTimeString (dateString : String) (hour : Nat) : String :=
  let p := parseYMD dateString
  toString p.1 ++ "-" ++ pad2 p.2.1 ++ "-" ++ pad2 p.2.2 ++ "T" ++ pad2 hour ++ ":00:00"

/-- `TimezoneService.getTargetHourInUTC`: interprets `hour:00:00` on the
calendar day of `dateString` as wall-clock time in `timezone` and converts
it to a UTC instant.  The conversion itself is the external
`zonedTimeToUtc` of `date-fns-tz` (IANA database), passed as an oracle
returning epoch milliseconds. -/
def getTargetHourInUTC (zonedTimeToUtc : String → String → Int)
    (dateString timezone : String) (hour : Nat) : Int :=
  zonedTimeToUtc (localDateTimeString dateString hour) timezone

/-- `TimezoneService.calculateDelaySeconds`: floor the millisecond gap to
whole seconds, clamp below at 0 and above at 900 (`Int.fdiv` is JS
`Math.floor` division).  `nowMs` models `new Date().getTime()`. -/
def calculateDelaySeconds (zonedTimeToUtc : String → String → Int) (nowMs : Int)
    (dateString timezone : String) (hour : Nat) : Int :=
  let targetUTC := getTargetHourInUTC zonedTimeToUtc dateString timezone hour
  let delayMs := targetUTC - nowMs
  let delaySeconds := Int.fdiv delayMs 1000
  if delaySeconds < 0 then 0 else min delaySeconds 900

/-- Month and day of a `YYYY-MM-DD` string (the `getMonth`/`getDate`
projection used by `TimezoneService.isToday`). -/
def monthDayOf (dateString : String) : Nat × Nat :=
  let p := parseYMD dateString
  (p.2.1, p.2.2)

/-- `TimezoneService.isToday`: compares month and day of `dateString` with
the current date as observed in `timezone`.  `nowMonthDayInTz` is the
oracle for `utcToZonedTime(new Date(), timezone)` projected to
month and day. -/
def isToday (nowMonthDayInTz : String → Nat × Nat) (dateString timezone : String) : Bool :=
  monthDayOf dateString == nowMonthDayInTz timezone

/-! ## `src/services/events/birthday-service.ts` -/

/-- `EventSchedule` (the `DeliverySchedule` of the spec): user reference,
target UTC instant (epoch milliseconds) and delay in seconds. -/
structure EventSchedule where
  user : User
  targetUTC : Int
  delaySeconds : Nat
deriving Repr, DecidableEq

/-- `BirthdayService.calculateNextBirthdayDelivery`: the target hour today
(today = `format(now, 'yyyy-MM-dd')` on the reference clock, supplied by
the `fmtYMD` oracle) in the user's timezone, converted to UTC. -/
def calculateNextBirthdayDelivery (zonedTimeToUtc : String → String → Int)
    (fmtYMD : Int → String) (nowMs : Int) (targetHour : Nat) (user : User) : Int :=
  getTargetHourInUTC zonedTimeToUtc (fmtYMD nowMs) user.timezone targetHour

/-- `BirthdayService.calculateSchedule`: `none` when the target instant is
still in the future, otherwise a schedule with `delaySeconds = 0`. -/
def calculateSchedule (zonedTimeToUtc : String → String → Int)
    (fmtYMD : Int → String) (nowMs : Int) (targetHour : Nat) (user : User) :
    Option EventSchedule :=
  let targetUTC := calculateNextBirthdayDelivery zonedTimeToUtc fmtYMD nowMs targetHour user
  if targetUTC > nowMs then none
  else some ⟨user, targetUTC, 0⟩

/-- The `Map`-based de-duplication used by `getUsersWithEventToday` and
`getUsersWithEventInRange`: keep the first record seen for each
`userId` (`seen` holds the keys already in the map). -/
def dedupeAux (seen : List String) : List User → List User
  | [] => []
  | u :: us =>
    if u.userId ∈ seen then dedupeAux seen us
    else u :: dedupeAux (u.userId :: seen) us

def dedupeByUserId (users : List User) : List User :=
  dedupeAux [] users

/-- `BirthdayService.getUsersWithEventToday`: union of the two GSI query
results (today's and tomorrow's month-day keys, already push-down filtered
by the store), de-duplicated by `userId`, then narrowed to users whose
birthday is today in their own timezone. -/
def getUsersWithEventToday (usersToday usersTomorrow : List User)
    (nowMonthDayInTz : String → Nat × Nat) : List User :=
  (dedupeByUserId (usersToday ++ usersTomorrow)).filter
    (fun u => isToday nowMonthDayInTz u.birthday u.timezone)

/-- `BirthdayService.getUsersWithEventInRange`: one GSI query per day
bucket of the lookback window (`dayKeys` are the `MM-dd` keys the date
loop produces, `queryByMonthDay` the store oracle), concatenated in loop
order and de-duplicated by `userId`. -/
def getUsersWithEventInRange (queryByMonthDay : String → List User)
    (dayKeys : List String) : List User :=
  dedupeByUserId (dayKeys.map queryByMonthDay).flatten

/-! ## `src/handlers/scheduler.ts` -/

/-- Per-user outcome inside `processBatch` while preparing SQS entries:
`skip` = `calculateSchedule` returned `null` (target hour not reached),
`prepared` = an entry was pushed, `errored` = preparation threw. -/
inductive PrepOutcome
  | skip
  | prepared
  | errored
deriving Repr, DecidableEq, BEq

/-- `chunkArray` from `handlers/scheduler.ts`, the slice loop written with
the list length as structural fuel (one slice removes at least one element
whenever `size > 0`; the source only calls it with `size = 10`). -/
def chunkArrayGo (fuel : Nat) (l : List α) (size : Nat) : List (List α) :=
  match fuel, l with
  | _, [] => []
  | 0, _ :: _ => []
  | f + 1, x :: xs => (x :: xs).take size :: chunkArrayGo f ((x :: xs).drop size) size

def chunkArray (l : List α) (size : Nat) : List (List α) :=
  chunkArrayGo l.length l size

/-- `processBatch` from `handlers/scheduler.ts`, with the per-user
preparation fates given and `sendOk` the outcome of the single
`SendMessageBatchCommand` (consulted only when at least one entry was
prepared): on success `successCount = entries.length`, on failure
`failedCount += entries.length`. -/
def processBatch (preps : List PrepOutcome) (sendOk : Bool) : Nat × Nat :=
  let entries := preps.count PrepOutcome.prepared
  let failedPrep := preps.count PrepOutcome.errored
  if entries > 0 then
    if sendOk then (entries, failedPrep)
    else (0, failedPrep + entries)
  else
    (0, failedPrep)

/-- One element of the `Promise.allSettled` result over the batches. -/
inductive BatchResult
  | rejected
  | fulfilled (success failed : Nat)
deriving Repr, DecidableEq

/-- The settled results of all batches: `fate i = none` models a rejected
batch promise, `fate i = some ok` a fulfilled `processBatch` run whose
SQS submit outcome was `ok`. -/
def runBatches (users : List PrepOutcome) (fate : Nat → Option Bool) : List BatchResult :=
  (chunkArray users 10).enum.map (fun p =>
    match fate p.1 with
    | none => BatchResult.rejected
    | some ok => BatchResult.fulfilled (processBatch p.2 ok).1 (processBatch p.2 ok).2)

/-- `totalSuccess` aggregation of `scheduleEvents`. -/
def totalSuccessOf (results : List BatchResult) : Nat :=
  (results.map (fun r =>
    match r with
    | BatchResult.fulfilled s _ => s
    | BatchResult.rejected => 0)).sum

/-- `failedBatches` aggregation of `scheduleEvents`: a fulfilled batch is
counted when `failed > 0 || success === 0`; a rejected one always. -/
def failedBatchesOf (results : List BatchResult) : Nat :=
  results.countP (fun r =>
    match r with
    | BatchResult.rejected => true
    | BatchResult.fulfilled s f => decide (0 < f) || decide (s = 0))

/-- `scheduleEvents` from `handlers/scheduler.ts` (after the users were
fetched): early return on an empty user set, otherwise chunk into batches
of 10, settle them all, and throw exactly when
`failedBatches === userBatches.length && totalSuccess === 0`. -/
def scheduleEvents (users : List PrepOutcome) (fate : Nat → Option Bool) :
    Except String Unit :=
  if users.length = 0 then .ok ()
  else
    let results := runBatches users fate
    if failedBatchesOf results = results.length ∧ totalSuccessOf results = 0 then
      .error "All batches failed to process"
    else
      .ok ()

/-- Modelled from the claim's words: a batch "failed" when its promise
rejected, its SQS submit was attempted and failed, or some of its items
failed during preparation. -/
def batchFailedSpec (preps : List PrepOutcome) (fate : Option Bool) : Bool :=
  match fate with
  | none => true
  | some ok =>
    (!ok && decide (0 < preps.count PrepOutcome.prepared)) ||
      decide (0 < preps.count PrepOutcome.errored)

/-! ## `src/handlers/recovery.ts` -/

/-- The `MM-DD` projection of `eventDate` re-anchored to the current year:
`eventThisYear` in `recoverEvents`. -/
def eventThisYearString (currentYear : Int) (eventDate : String) : String :=
  let p := parseYMD eventDate
  toString currentYear ++ "-" ++ pad2 p.2.1 ++ "-" ++ pad2 p.2.2

/-- The external collaborators consulted by one recovery sweep.
`read` is the ledger `GetCommand` outcome per `userId`; `dateAfterNow`
models `new Date(eventDate) > now`; `iso8601` models `Date.toISOString`;
`sqsSendOk` tells whether the per-user `SendMessageCommand` succeeded
(a throw is caught and the loop continues with the next user). -/
structure RecoveryEnv where
  read : String → Except Unit (Option Item)
  yearOf : String → Int
  currentYear : Int
  nowMonthDayInTz : String → Nat × Nat
  dateAfterNow : String → Bool
  zonedTimeToUtc : String → String → Int
  iso8601 : Int → String
  sqsSendOk : String → Bool
  targetHour : Nat
  eventType : String

/-- The body of the per-user loop of `recoverEvents` in
`handlers/recovery.ts`: skip when already sent; skip when the event is not
today in the user's timezone and `new Date(eventDate) > now`; otherwise
build the message body (with `targetUTC` computed for the event's month
and day in the current year) and send it. `none` = no message emitted. -/
def recoverUser (env : RecoveryEnv) (user : User) : Option EventMessage :=
  let eventDate := user.birthday
  if wasMessageSent env.yearOf env.currentYear env.eventType eventDate
      (env.read user.userId) then
    none
  else if !isToday env.nowMonthDayInTz user.birthday user.timezone &&
      env.dateAfterNow eventDate then
    none
  else if env.sqsSendOk user.userId then
    some ⟨user.userId, user.firstName, user.lastName, env.eventType, eventDate,
      user.timezone,
      env.iso8601 (getTargetHourInUTC env.zonedTimeToUtc
        (eventThisYearString env.currentYear eventDate) user.timezone env.targetHour)⟩
  else
    none

/-- `recoverEvents` from `handlers/recovery.ts` over an already-fetched
candidate list: the sequence of messages actually handed to SQS. -/
def recoverEvents (env : RecoveryEnv) (users : List User) : List EventMessage :=
  users.filterMap (recoverUser env)

/-! ## Theorems -/

/-- C1 (code-bug evidence): with a stored marker for the same date whose
timestamp is from a prior year, the spec's write condition ("no marker for
this date yet, or its timestamp is not from the current year") holds, yet
the `ConditionExpression` of `markMessageAsSent` rejects the write and the
function returns `false` with the record unchanged: the code checks only
that the sent field is missing or empty and never consults the year. -/
theorem markMessageAsSent_rejects_prior_year_marker :
    specMarkCondition isoYear 2024
        (storeGet [("user-1", ⟨[("lastBirthdayMessageDate", "1990-01-15"),
            ("lastBirthdayMessageSent", "2023-01-15T09:00:00.000Z")]⟩)] "user-1")
        "lastBirthdayMessageDate" "lastBirthdayMessageSent" "1990-01-15" = true ∧
    markMessageAsSent "2024-01-15T09:00:00.000Z" "birthday" "user-1" "1990-01-15"
        [("user-1", ⟨[("lastBirthdayMessageDate", "1990-01-15"),
            ("lastBirthdayMessageSent", "2023-01-15T09:00:00.000Z")]⟩)] =
      (false, [("user-1", ⟨[("lastBirthdayMessageDate", "1990-01-15"),
            ("lastBirthdayMessageSent", "2023-01-15T09:00:00.000Z")]⟩)]) :=
  ⟨rfl, rfl⟩

/-- C2: in `processEventMessage` the ledger is mutated only when the
outbound send returned success, and whenever the send raises an error the
error is propagated unchanged while the ledger keeps its prior state. -/
theorem processEventMessage_ledger_only_after_send
    (user? : Option User) (ledgerRead : Except Unit (Option Item))
    (sendResult : Except String Unit) (yearOf : String → Int) (currentYear : Int)
    (now : String) (msg : EventMessage) (store : Store) :
    ((processEventMessage user? ledgerRead sendResult yearOf currentYear
        now msg store).store ≠ store → sendResult = Except.ok ()) ∧
    (∀ e, sendResult = Except.error e →
      (processEventMessage user? ledgerRead sendResult yearOf currentYear
          now msg store).store = store ∧
      ((processEventMessage user? ledgerRead sendResult yearOf currentYear
          now msg store).sendAttempted = true →
        (processEventMessage user? ledgerRead sendResult yearOf currentYear
            now msg store).result = Except.error e)) := by
  unfold processEventMessage
  cases user? with
  | none => simp
  | some user =>
    by_cases hw : wasMessageSent yearOf currentYear msg.eventType msg.eventDate ledgerRead
    · simp [hw]
    · cases sendResult with
      | error e => simp [hw]
      | ok u => cases u; simp [hw]

/-- C2 witness: a concrete run in which the send fails with `boom`; the
consumer propagates `boom` and the (empty) store is untouched. -/
theorem processEventMessage_ledger_only_after_send_witness :
    (processEventMessage
        (some ⟨"u1", "A", "B", "1990-01-15", "UTC", ⟨"C", "P", none, none⟩,
          "2024-01-01T00:00:00Z", "2024-01-01T00:00:00Z", none, none⟩)
        (Except.ok none) (Except.error "boom") isoYear 2024 "2024-01-15T09:00:00Z"
        ⟨"u1", "A", "B", "birthday", "1990-01-15", "UTC", "t"⟩ []).store = ([] : Store) ∧
    (processEventMessage
        (some ⟨"u1", "A", "B", "1990-01-15", "UTC", ⟨"C", "P", none, none⟩,
          "2024-01-01T00:00:00Z", "2024-01-01T00:00:00Z", none, none⟩)
        (Except.ok none) (Except.error "boom") isoYear 2024 "2024-01-15T09:00:00Z"
        ⟨"u1", "A", "B", "birthday", "1990-01-15", "UTC", "t"⟩ []).result =
      Except.error "boom" := by
  have h := processEventMessage_ledger_only_after_send
    (some ⟨"u1", "A", "B", "1990-01-15", "UTC", ⟨"C", "P", none, none⟩,
      "2024-01-01T00:00:00Z", "2024-01-01T00:00:00Z", none, none⟩)
    (Except.ok none) (Except.error "boom") isoYear 2024 "2024-01-15T09:00:00Z"
    ⟨"u1", "A", "B", "birthday", "1990-01-15", "UTC", "t"⟩ []
  exact ⟨(h.2 "boom" rfl).1, (h.2 "boom" rfl).2 rfl⟩

/-- C8: `calculateDelaySeconds` equals
`max 0 (min 900 (floor((targetUTC - now) / 1000)))`, is non-negative,
never exceeds the 900-second SQS cap, and is 0 once the target instant
has passed. -/
theorem calculateDelaySeconds_clamped (zonedTimeToUtc : String → String → Int)
    (nowMs : Int) (dateString timezone : String) (hour : Nat) :
    calculateDelaySeconds zonedTimeToUtc nowMs dateString timezone hour =
      max 0 (min 900 (Int.fdiv
        (getTargetHourInUTC zonedTimeToUtc dateString timezone hour - nowMs) 1000)) ∧
    0 ≤ calculateDelaySeconds zonedTimeToUtc nowMs dateString timezone hour ∧
    calculateDelaySeconds zonedTimeToUtc nowMs dateString timezone hour ≤ 900 ∧
    (getTargetHourInUTC zonedTimeToUtc dateString timezone hour ≤ nowMs →
      calculateDelaySeconds zonedTimeToUtc nowMs dateString timezone hour = 0) := by
  have h : calculateDelaySeconds zonedTimeToUtc nowMs dateString timezone hour =
      if Int.fdiv (getTargetHourInUTC zonedTimeToUtc dateString timezone hour - nowMs)
          1000 < 0 then 0
      else min (Int.fdiv (getTargetHourInUTC zonedTimeToUtc dateString timezone hour -
          nowMs) 1000) 900 := rfl
  rw [h]
  set q := Int.fdiv
    (getTargetHourInUTC zonedTimeToUtc dateString timezone hour - nowMs) 1000 with hq
  have hsub : getTargetHourInUTC zonedTimeToUtc dateString timezone hour ≤ nowMs →
      q ≤ 0 := by
    intro hle
    rw [hq, Int.fdiv_eq_ediv _ (by norm_num : (0 : ℤ) ≤ 1000)]
    have hnum : getTargetHourInUTC zonedTimeToUtc dateString timezone hour - nowMs ≤ 0 := by
      omega
    simpa using Int.ediv_le_ediv (by norm_num : (0 : ℤ) < 1000) hnum
  refine ⟨by split <;> omega, by split <;> omega, by split <;> omega, fun hle => ?_⟩
  have hq0 := hsub hle
  split <;> omega

/-- C8 witness: with a conversion oracle placing the target at epoch 0 and
the clock at epoch 0 (the target has passed), the delay is 0, via the
clamping theorem. -/
theorem calculateDelaySeconds_clamped_witness :
    calculateDelaySeconds (fun _ _ => 0) 0 "2024-01-15" "UTC" 9 = 0 :=
  (calculateDelaySeconds_clamped (fun _ _ => 0) 0 "2024-01-15" "UTC" 9).2.2.2
    (by norm_num [getTargetHourInUTC])

/-- C9: `getMessageStatusFields` is total and resolves every event type,
configured or not, to the birthday field names; no throwing branch
exists despite the doc comment of the source function. -/
theorem getMessageStatusFields_total_default (eventType : String) :
    getMessageStatusFields eventType =
      ⟨"lastBirthdayMessageDate", "lastBirthdayMessageSent"⟩ := by
  unfold getMessageStatusFields EVENT_TYPE_FIELD_MAPPING
  by_cases h : eventType = "birthday" <;> simp [h]

/-- C10: when the ledger read errors, `wasMessageSent` swallows the error
and answers `false`, so the consumer proceeds toward the send (it never
drops an unsent task because of a read failure). -/
theorem wasMessageSent_read_error_failsafe (yearOf : String → Int) (currentYear : Int)
    (eventType eventDate : String) (e : Unit) (user : User)
    (sendResult : Except String Unit) (now : String) (msg : EventMessage)
    (store : Store) :
    wasMessageSent yearOf currentYear eventType eventDate (Except.error e) = false ∧
    (processEventMessage (some user) (Except.error e) sendResult yearOf currentYear
        now msg store).sendAttempted = true := by
  refine ⟨rfl, ?_⟩
  unfold processEventMessage
  cases sendResult <;> rfl

/-- C3: `wasMessageSent` answers `true` exactly when the read returned a
record whose date field equals `eventDate` and whose sent field is a
present, non-empty timestamp from the current calendar year; and the
consumer drops a task (returns with no send and no store change) exactly
under this condition once the user record was found. -/
theorem wasMessageSent_iff_current_year_marker (yearOf : String → Int)
    (currentYear : Int) (eventType eventDate : String) (item? : Option Item)
    (user : User) (sendResult : Except String Unit) (now : String)
    (msg : EventMessage) (store : Store) :
    (wasMessageSent yearOf currentYear eventType eventDate (Except.ok item?) = true ↔
      ∃ item, item? = some item ∧
        item.getAttr (getMessageStatusFields eventType).dateField = some eventDate ∧
        ∃ s, item.getAttr (getMessageStatusFields eventType).sentField = some s ∧
          s ≠ "" ∧ yearOf s = currentYear) ∧
    (processEventMessage (some user) (Except.ok item?) sendResult yearOf currentYear
        now msg store = ⟨Except.ok (), store, false⟩ ↔
      wasMessageSent yearOf currentYear msg.eventType msg.eventDate
        (Except.ok item?) = true) := by
  constructor
  · cases item? with
    | none => simp [wasMessageSent]
    | some item =>
      cases hd : item.getAttr (getMessageStatusFields eventType).dateField with
      | none => simp [wasMessageSent, hd]
      | some d =>
        cases hs : item.getAttr (getMessageStatusFields eventType).sentField with
        | none => simp [wasMessageSent, hd, hs]
        | some s =>
          simp only [wasMessageSent, hd, hs]
          by_cases h1 : d = eventDate
          · by_cases h2 : s = ""
            · simp [hd, hs, h1, h2]
            · simp [hd, hs, h1, h2]
          · simp [hd, hs, h1]
  · by_cases hw : wasMessageSent yearOf currentYear msg.eventType msg.eventDate
        (Except.ok item?)
    · simp [processEventMessage, hw]
    · simp only [processEventMessage, hw, Bool.false_eq_true, if_false]
      cases sendResult with
      | error e => simp [hw]
      | ok u => simp [hw]

/-- C3 witness: a ledger record with a matching date and a 2024 timestamp
is reported as already sent in 2024, via the characterization theorem. -/
theorem wasMessageSent_iff_current_year_marker_witness :
    wasMessageSent isoYear 2024 "birthday" "1990-01-15"
      (Except.ok (some ⟨[("lastBirthdayMessageDate", "1990-01-15"),
        ("lastBirthdayMessageSent", "2024-01-15T09:00:01Z")]⟩)) = true := by
  have h := wasMessageSent_iff_current_year_marker isoYear 2024 "birthday" "1990-01-15"
    (some ⟨[("lastBirthdayMessageDate", "1990-01-15"),
      ("lastBirthdayMessageSent", "2024-01-15T09:00:01Z")]⟩)
    ⟨"u1", "A", "B", "1990-01-15", "UTC", ⟨"C", "P", none, none⟩,
      "2024-01-01T00:00:00Z", "2024-01-01T00:00:00Z", none, none⟩
    (Except.ok ()) "2024-01-15T09:00:02Z"
    ⟨"u1", "A", "B", "birthday", "1990-01-15", "UTC", "t"⟩ []
  exact h.1.mpr ⟨⟨[("lastBirthdayMessageDate", "1990-01-15"),
    ("lastBirthdayMessageSent", "2024-01-15T09:00:01Z")]⟩, rfl, rfl,
    "2024-01-15T09:00:01Z", rfl, by decide, by decide⟩

/-- C5: `calculateSchedule` returns `none` exactly when the target instant
(the configured hour today in the user's timezone, in UTC) is strictly
later than now, and otherwise returns the schedule carrying that instant
with `delaySeconds = 0`. -/
theorem calculateSchedule_none_iff_future (zonedTimeToUtc : String → String → Int)
    (fmtYMD : Int → String) (nowMs : Int) (targetHour : Nat) (user : User) :
    (calculateSchedule zonedTimeToUtc fmtYMD nowMs targetHour user = none ↔
      nowMs < calculateNextBirthdayDelivery zonedTimeToUtc fmtYMD nowMs
        targetHour user) ∧
    (calculateNextBirthdayDelivery zonedTimeToUtc fmtYMD nowMs targetHour user ≤
        nowMs →
      calculateSchedule zonedTimeToUtc fmtYMD nowMs targetHour user =
        some ⟨user,
          calculateNextBirthdayDelivery zonedTimeToUtc fmtYMD nowMs targetHour user,
          0⟩) := by
  have h : calculateSchedule zonedTimeToUtc fmtYMD nowMs targetHour user =
      if calculateNextBirthdayDelivery zonedTimeToUtc fmtYMD nowMs targetHour user >
          nowMs then none
      else some ⟨user,
        calculateNextBirthdayDelivery zonedTimeToUtc fmtYMD nowMs targetHour user,
        0⟩ := rfl
  rw [h]
  constructor
  · split <;> simp_all
  · intro hle
    rw [if_neg (by omega)]

/-- C5 witness: with the target instant at epoch 0 and the clock at epoch
5, the target has arrived and the schedule is emitted with that instant
and zero delay, via the characterization theorem. -/
theorem calculateSchedule_none_iff_future_witness :
    calculateSchedule (fun _ _ => 0) (fun _ => "2024-01-15") 5 9
      ⟨"u1", "A", "B", "1990-01-15", "UTC", ⟨"C", "P", none, none⟩,
        "2024-01-01T00:00:00Z", "2024-01-01T00:00:00Z", none, none⟩ =
      some ⟨⟨"u1", "A", "B", "1990-01-15", "UTC", ⟨"C", "P", none, none⟩,
        "2024-01-01T00:00:00Z", "2024-01-01T00:00:00Z", none, none⟩, 0, 0⟩ := by
  have h := (calculateSchedule_none_iff_future (fun _ _ => 0) (fun _ => "2024-01-15")
    5 9 ⟨"u1", "A", "B", "1990-01-15", "UTC", ⟨"C", "P", none, none⟩,
      "2024-01-01T00:00:00Z", "2024-01-01T00:00:00Z", none, none⟩).2
    (by norm_num [calculateNextBirthdayDelivery, getTargetHourInUTC])
  simpa [calculateNextBirthdayDelivery, getTargetHourInUTC] using h

/-- Aggregation fact behind the scheduler's throw condition: whenever zero
items were enqueued, every settled batch is counted as failed (a rejected
batch always, a fulfilled one because its success count is 0). -/
theorem totalSuccess_zero_all_failed (results : List BatchResult)
    (h : totalSuccessOf results = 0) : failedBatchesOf results = results.length := by
  induction results with
  | nil => rfl
  | cons r rs ih =>
    cases r with
    | rejected =>
      have hrs : totalSuccessOf rs = 0 := by
        simpa [totalSuccessOf] using h
      have hc := ih hrs
      unfold failedBatchesOf at hc ⊢
      simp [List.countP_cons, hc]
    | fulfilled s f =>
      have hsum : s + totalSuccessOf rs = 0 := by
        simpa [totalSuccessOf] using h
      have hc := ih (by omega)
      unfold failedBatchesOf at hc ⊢
      simp [List.countP_cons, hc, show s = 0 by omega]

/-- C4 counterexample: one user whose target hour has not arrived (the
schedule was `null`, so nothing was prepared), with an SQS submit that
would have succeeded and no rejection and no preparation error anywhere —
no batch failed in the claim's sense, yet `scheduleEvents` raises the
"All batches failed to process" error (the code counts a batch with zero
successes as failed and throws exactly when zero items were enqueued). -/
theorem scheduleEvents_error_without_batch_failure :
    scheduleEvents [PrepOutcome.skip] (fun _ => some true) =
      Except.error "All batches failed to process" ∧
    batchFailedSpec [PrepOutcome.skip] (some true) = false ∧
    totalSuccessOf (runBatches [PrepOutcome.skip] (fun _ => some true)) = 0 :=
  ⟨rfl, rfl, rfl⟩

/-- C4 (amended): for a non-empty user set, `scheduleEvents` raises the
invocation-level error exactly when zero items were successfully enqueued
(every batch is then counted as failed, including batches that merely
enqueued nothing); any run with at least one item enqueued completes
without raising. -/
theorem scheduleEvents_error_iff_zero_enqueued (users : List PrepOutcome)
    (fate : Nat → Option Bool) (hne : users ≠ []) :
    scheduleEvents users fate = Except.error "All batches failed to process" ↔
      totalSuccessOf (runBatches users fate) = 0 := by
  have hdef : scheduleEvents users fate =
      if users.length = 0 then Except.ok ()
      else
        if failedBatchesOf (runBatches users fate) = (runBatches users fate).length ∧
            totalSuccessOf (runBatches users fate) = 0 then
          Except.error "All batches failed to process"
        else Except.ok () := rfl
  have hlen : ¬users.length = 0 := by
    simpa [List.length_eq_zero] using hne
  rw [hdef, if_neg hlen]
  constructor
  · intro he
    by_cases hc : failedBatchesOf (runBatches users fate) =
        (runBatches users fate).length ∧ totalSuccessOf (runBatches users fate) = 0
    · exact hc.2
    · rw [if_neg hc] at he
      cases he
  · intro h0
    rw [if_pos ⟨totalSuccess_zero_all_failed _ h0, h0⟩]

/-- C4 witness: a single user whose message preparation threw; zero items
were enqueued, so the amended theorem yields the hard error. -/
theorem scheduleEvents_error_iff_zero_enqueued_witness :
    scheduleEvents [PrepOutcome.errored] (fun _ => some true) =
      Except.error "All batches failed to process" :=
  (scheduleEvents_error_iff_zero_enqueued [PrepOutcome.errored] (fun _ => some true)
    (by decide)).mpr rfl

/-- Invariant of the `Map`-based de-duplication: the output's `userId`
keys are pairwise distinct and disjoint from the keys already seen. -/
theorem dedupeAux_nodup_keys (seen : List String) (l : List User) :
    ((dedupeAux seen l).map User.userId).Nodup ∧
      ∀ k ∈ (dedupeAux seen l).map User.userId, k ∉ seen := by
  induction l generalizing seen with
  | nil => simp [dedupeAux]
  | cons u us ih =>
    by_cases hm : u.userId ∈ seen
    · simpa [dedupeAux, hm] using ih seen
    · have ih' := ih (u.userId :: seen)
      refine ⟨?_, ?_⟩
      · simp only [dedupeAux, hm, if_false, List.map_cons, List.nodup_cons]
        refine ⟨fun hmem => ?_, ih'.1⟩
        exact (ih'.2 _ hmem) (List.mem_cons_self _ _)
      · intro k hk
        simp only [dedupeAux, hm, if_false, List.map_cons, List.mem_cons] at hk
        rcases hk with rfl | hk
        · exact hm
        · exact fun hkseen => (ih'.2 _ hk) (List.mem_cons_of_mem _ hkseen)

/-- C6: the scheduler's daily user set contains no two entries with the
same `userId`, and every returned user's birthday is today in their own
timezone (the two-day superset is narrowed by the `isToday` filter). -/
theorem getUsersWithEventToday_dedup_and_today (usersToday usersTomorrow : List User)
    (nowMonthDayInTz : String → Nat × Nat) :
    (((getUsersWithEventToday usersToday usersTomorrow nowMonthDayInTz).map
        User.userId).Nodup) ∧
    (∀ u ∈ getUsersWithEventToday usersToday usersTomorrow nowMonthDayInTz,
      isToday nowMonthDayInTz u.birthday u.timezone = true) := by
  constructor
  · have hsub : List.Sublist
        (getUsersWithEventToday usersToday usersTomorrow nowMonthDayInTz)
        (dedupeByUserId (usersToday ++ usersTomorrow)) := List.filter_sublist _
    exact ((dedupeAux_nodup_keys [] (usersToday ++ usersTomorrow)).1).sublist
      (hsub.map User.userId)
  · intro u hu
    have hu' : u ∈ (dedupeByUserId (usersToday ++ usersTomorrow)).filter
        (fun v => isToday nowMonthDayInTz v.birthday v.timezone) := hu
    exact (List.mem_filter.mp hu').2

/-- C6 witness: with a duplicated record across the two query results and
one not-today record, the theorem applies at a member of the result and
certifies its filter condition. -/
theorem getUsersWithEventToday_dedup_and_today_witness :
    isToday (fun _ => (1, 15)) "1990-01-15" "UTC" = true := by
  exact (getUsersWithEventToday_dedup_and_today
    [⟨"uA", "A", "A", "1990-01-15", "UTC", ⟨"C", "P", none, none⟩, "c", "u", none, none⟩,
     ⟨"uB", "B", "B", "1990-03-02", "UTC", ⟨"C", "P", none, none⟩, "c", "u", none, none⟩]
    [⟨"uA", "A", "A", "1990-01-15", "UTC", ⟨"C", "P", none, none⟩, "c", "u", none, none⟩]
    (fun _ => (1, 15))).2
    ⟨"uA", "A", "A", "1990-01-15", "UTC", ⟨"C", "P", none, none⟩, "c", "u", none, none⟩
    (by decide)

/-- Any message `recoverUser` emits carries the `userId` of the user it
was built from. -/
theorem recoverUser_userId (env : RecoveryEnv) (u : User) (m : EventMessage)
    (h : recoverUser env u = some m) : m.userId = u.userId := by
  by_cases h1 : wasMessageSent env.yearOf env.currentYear env.eventType u.birthday
      (env.read u.userId)
  · simp [recoverUser, h1] at h
  · by_cases h2 : (!isToday env.nowMonthDayInTz u.birthday u.timezone &&
        env.dateAfterNow u.birthday) = true
    · simp [recoverUser, h1, h2] at h
    · by_cases h3 : env.sqsSendOk u.userId
      · simp [recoverUser, h1, h2, h3] at h
        subst h
        rfl
      · simp [recoverUser, h1, h2, h3] at h

/-- The `userId` sequence of the emitted recovery messages is a sublist of
the candidates' `userId` sequence. -/
theorem recoverEvents_userIds_sublist (env : RecoveryEnv) (l : List User) :
    List.Sublist ((recoverEvents env l).map (fun m => m.userId))
      (l.map User.userId) := by
  induction l with
  | nil => simp [recoverEvents]
  | cons u us ih =>
    show List.Sublist (((u :: us).filterMap (recoverUser env)).map (fun m => m.userId))
      (List.map User.userId (u :: us))
    cases hru : recoverUser env u with
    | none =>
      simp only [List.filterMap_cons, hru, List.map_cons]
      exact ih.cons _
    | some m =>
      simp only [List.filterMap_cons, hru, List.map_cons,
        recoverUser_userId env u m hru]
      exact ih.cons₂ _

/-- C7 counterexample: a candidate user whose stored event date
`2031-10-11` is strictly in the future (`dateAfterNow` is honestly `true`
for it at a sweep run on 2030-10-11) but whose month-day is today in
their timezone is *emitted* by the recovery sweep, because the code only
applies the future-date skip when the event is not today; the claim says
no task may be emitted for a future-dated candidate. -/
theorem recoverEvents_emits_future_dated_user :
    (decide ((2030 : Int) < isoYear "2031-10-11") = true) ∧
    ((recoverEvents
      ⟨fun _ => Except.ok none, isoYear, 2030, fun _ => (10, 11),
        fun s => decide ((2030 : Int) < isoYear s), fun _ _ => 0,
        fun _ => "1970-01-01T00:00:00.000Z", fun _ => true, 9, "birthday"⟩
      (getUsersWithEventInRange
        (fun k => if k = "10-11" then
          [⟨"user-f", "Fay", "Future", "2031-10-11", "UTC", ⟨"X", "Y", none, none⟩,
            "2030-01-01T00:00:00Z", "2030-01-01T00:00:00Z", some "10-11", none⟩]
          else [])
        ["10-04", "10-05", "10-06", "10-07", "10-08", "10-09", "10-10", "10-11"])).map
      (fun m => m.userId) = ["user-f"]) :=
  ⟨rfl, rfl⟩

/-- C7 (amended): the recovery sweep emits at most one message per
`userId` (candidates from multiple day-buckets are de-duplicated), and a
candidate whose event date is strictly in the future *and* whose event is
not today in their own timezone is always skipped. -/
theorem recoverEvents_skips_future_and_dedups (env : RecoveryEnv)
    (queryByMonthDay : String → List User) (dayKeys : List String) :
    (((recoverEvents env (getUsersWithEventInRange queryByMonthDay dayKeys)).map
        (fun m => m.userId)).Nodup) ∧
    (∀ u ∈ getUsersWithEventInRange queryByMonthDay dayKeys,
      isToday env.nowMonthDayInTz u.birthday u.timezone = false →
      env.dateAfterNow u.birthday = true →
      ∀ m ∈ recoverEvents env (getUsersWithEventInRange queryByMonthDay dayKeys),
        m.userId ≠ u.userId) := by
  have hnodup : ((getUsersWithEventInRange queryByMonthDay dayKeys).map
      User.userId).Nodup := (dedupeAux_nodup_keys [] _).1
  constructor
  · exact hnodup.sublist (recoverEvents_userIds_sublist env _)
  · intro u hu hnt hf m hm heq
    obtain ⟨u', hu', hru'⟩ := List.mem_filterMap.mp hm
    have hid : u'.userId = u.userId := by
      rw [← recoverUser_userId env u' m hru']
      exact heq
    have huu : u' = u := List.inj_on_of_nodup_map hnodup hu' hu hid
    subst huu
    have hnone : recoverUser env u' = none := by
      by_cases hws : wasMessageSent env.yearOf env.currentYear env.eventType
          u'.birthday (env.read u'.userId)
      · simp [recoverUser, hws]
      · simp [recoverUser, hws, hnt, hf]
    rw [hnone] at hru'
    cases hru'

/-- C7 amended witness: a sweep over two day-buckets in which `user-s`
(not today, future-dated) is skipped while `user-e` is emitted; the
theorem certifies the emitted message is not for `user-s`. -/
theorem recoverEvents_skips_future_and_dedups_witness :
    (⟨"user-e", "E", "E", "birthday", "1990-10-11", "UTC",
      "1970-01-01T00:00:00.000Z"⟩ : EventMessage).userId ≠ "user-s" := by
  exact (recoverEvents_skips_future_and_dedups
    ⟨fun _ => Except.ok none, isoYear, 2030, fun _ => (10, 11),
      fun s => decide ((2030 : Int) < isoYear s), fun _ _ => 0,
      fun _ => "1970-01-01T00:00:00.000Z", fun _ => true, 9, "birthday"⟩
    (fun k => if k = "10-05" then
        [⟨"user-s", "S", "Skip", "2031-10-05", "UTC", ⟨"X", "Y", none, none⟩,
          "2030-01-01T00:00:00Z", "2030-01-01T00:00:00Z", some "10-05", none⟩]
      else if k = "10-11" then
        [⟨"user-e", "E", "E", "1990-10-11", "UTC", ⟨"X", "Y", none, none⟩,
          "2030-01-01T00:00:00Z", "2030-01-01T00:00:00Z", some "10-11", none⟩]
      else [])
    ["10-05", "10-11"]).2
    ⟨"user-s", "S", "Skip", "2031-10-05", "UTC", ⟨"X", "Y", none, none⟩,
      "2030-01-01T00:00:00Z", "2030-01-01T00:00:00Z", some "10-05", none⟩
    (by decide) (by decide) (by decide)
    ⟨"user-e", "E", "E", "birthday", "1990-10-11", "UTC", "1970-01-01T00:00:00.000Z"⟩
    (by decide)

end ErinLiving
